import Mathlib

/-!
Shallow embedding of the real_time_chat server core and verification of
its specification claims.

The data model mirrors the PostgreSQL schema declared in
`src/server/config/initDatabase.js` (tables `users`, `channels`,
`channel_members`, `messages`).  The socket event handlers are embedded
from `src/server/server.js` (the `setupSocketHandlers` section), the HTTP
controllers from `src/unnamed/part_001` (`channelsController`), and the
client-side pieces the claims cite from
`src/client/src/components/Chat/MessageInput.jsx` and
`src/unnamed/part_003` (`MemberList`).

Machine conventions: SQL `SERIAL` identities are `Nat` counters; table
rows are append-ordered lists (so `created_at` order, ties broken by
identity assignment, is list order); Socket.IO rooms are the list of
`(channelId, connId)` subscriptions; an `emit` is an `Output` record
giving the receiving connection and the payload.
-/

namespace RealTimeChat

/-- A row of the `users` table (`initDatabase.js`). -/
structure UserRow where
  id : Nat
  username : String
  avatarColor : String
deriving DecidableEq, Repr

/-- A row of the `channels` table (`initDatabase.js`). -/
structure Channel where
  id : Nat
  name : String
  description : String
  creatorId : Nat
deriving DecidableEq, Repr

/-- A row of the `channel_members` table (`initDatabase.js`).  The
`joined_at` timestamp is irrelevant to every claim and omitted; the
`UNIQUE(channel_id, user_id)` constraint is stated as the invariant
`membersUnique` below. -/
structure MemberRow where
  channelId : Nat
  userId : Nat
deriving DecidableEq, Repr

/-- A row of the `messages` table (`initDatabase.js`).  Creation order is
position in `ServerState.messages`. -/
structure MessageRow where
  id : Nat
  channelId : Nat
  userId : Nat
  content : String
deriving DecidableEq, Repr

/-- A live Socket.IO connection: `socket.id`, plus the `userId` and
`username` bound by the authentication middleware (`server.js`). -/
structure Conn where
  connId : Nat
  userId : Nat
  username : String
deriving DecidableEq, Repr

/-- The whole server state: the four database tables, the Socket.IO room
subscriptions (`(channelId, connId)` pairs), the registry of live
connections, and the two `SERIAL` counters. -/
structure ServerState where
  users : List UserRow
  channels : List Channel
  members : List MemberRow
  messages : List MessageRow
  rooms : List (Nat × Nat)
  conns : List Conn
  nextChannelId : Nat
  nextMessageId : Nat
deriving DecidableEq, Repr

/-- A payload emitted to a client over the socket (`socket.emit` /
`io.to(...).emit` in `server.js`). -/
inductive Payload where
  | errorMsg (message : String)
  | forceLeave (channelId : Nat)
  | newMessage (m : MessageRow) (username avatarColor : String)
  | userJoined (userId : Nat) (username : String) (channelId : Nat)
  | userLeft (userId : Nat) (username : String) (channelId : Nat)
  | roomInfo (channelId onlineCount : Nat)
  | userTyping (userId : Nat) (username : String) (channelId : Nat) (isTyping : Bool)
  | userKicked (channelId userId : Nat)
  | memberRemoved (channelId userId : Nat)
deriving DecidableEq, Repr

/-- One delivered event: the receiving connection and the payload. -/
structure Output where
  target : Nat
  payload : Payload
deriving DecidableEq, Repr

/-- The Authorization Gate: `SELECT * FROM channel_members WHERE
channel_id = $1 AND user_id = $2` has a row (`server.js`, run inline in
each handler). -/
def isMember (st : ServerState) (channelId userId : Nat) : Bool :=
  st.members.any fun r => r.channelId == channelId && r.userId == userId

/-- Whether a channel row with this id exists (`SELECT ... FROM channels
WHERE id = $1` nonempty; also the `REFERENCES channels(id)` constraint). -/
def channelExists (st : ServerState) (channelId : Nat) : Bool :=
  st.channels.any fun c => c.id == channelId

/-- The connections currently subscribed to a channel's room, in
subscription order (`io.sockets.adapter.rooms.get` content). -/
def subscribers (st : ServerState) (channelId : Nat) : List Nat :=
  (st.rooms.filter fun p => p.1 == channelId).map Prod.snd

/-- `io.to(room).emit(payload)`: deliver to every subscriber. -/
def emitToRoom (st : ServerState) (channelId : Nat) (p : Payload) : List Output :=
  (subscribers st channelId).map fun cid => ⟨cid, p⟩

/-- `socket.to(room).emit(payload)`: deliver to every subscriber except
the emitting socket. -/
def emitToRoomExcept (st : ServerState) (channelId sender : Nat) (p : Payload) :
    List Output :=
  ((subscribers st channelId).filter fun cid => cid ≠ sender).map fun cid => ⟨cid, p⟩

/-- `socket.join(room)`: no-op when already subscribed. -/
def joinRoomList (rooms : List (Nat × Nat)) (channelId connId : Nat) :
    List (Nat × Nat) :=
  if (channelId, connId) ∈ rooms then rooms else rooms ++ [(channelId, connId)]

/-- The `join_channel` socket handler (`server.js` lines 131-166):
membership gate; on failure an `error` plus `force_leave_channel` to the
requester; on success join the room, `user_joined` to the others, then
`room_info` with the live room size to the whole room. -/
def join_channel (st : ServerState) (c : Conn) (channelId : Nat) :
    ServerState × List Output :=
  if isMember st channelId c.userId then
    let st' := { st with rooms := joinRoomList st.rooms channelId c.connId }
    let joinedOuts :=
      emitToRoomExcept st' channelId c.connId
        (Payload.userJoined c.userId c.username channelId)
    let roomSize := (subscribers st' channelId).length
    let infoOuts := emitToRoom st' channelId (Payload.roomInfo channelId roomSize)
    (st', joinedOuts ++ infoOuts)
  else
    (st, [⟨c.connId, Payload.errorMsg "Not a member of this channel"⟩,
          ⟨c.connId, Payload.forceLeave channelId⟩])

/-- The `leave_channel` socket handler (`server.js` lines 171-180):
`socket.leave` then `user_left` to the remaining room members. -/
def leave_channel (st : ServerState) (c : Conn) (channelId : Nat) :
    ServerState × List Output :=
  let st' := { st with rooms := st.rooms.filter fun p => p ≠ (channelId, c.connId) }
  (st', emitToRoomExcept st' channelId c.connId
          (Payload.userLeft c.userId c.username channelId))

/-- The `send_message` socket handler (`server.js` lines 185-232): fresh
membership gate on every call; on failure `error` + `force_leave_channel`
and nothing else; on success `INSERT INTO messages`, enrich with the
sender's `username`/`avatar_color` from the `users` table, and broadcast
`new_message` to the whole room.  (If the `users` lookup finds no row the
JS throws after the insert and the catch emits a generic error: the
message row stays persisted and no broadcast happens.) -/
def send_message (st : ServerState) (c : Conn) (channelId : Nat)
    (content : String) : ServerState × List Output :=
  if isMember st channelId c.userId then
    let msg : MessageRow := ⟨st.nextMessageId, channelId, c.userId, content⟩
    let st' := { st with messages := st.messages ++ [msg],
                         nextMessageId := st.nextMessageId + 1 }
    match st.users.find? (fun u => u.id == c.userId) with
    | some u =>
        (st', emitToRoom st' channelId
                (Payload.newMessage msg u.username u.avatarColor))
    | none => (st', [⟨c.connId, Payload.errorMsg "Error sending message"⟩])
  else
    (st, [⟨c.connId, Payload.errorMsg "You are not a member of this channel"⟩,
          ⟨c.connId, Payload.forceLeave channelId⟩])

/-- The `typing` socket handler (`server.js` lines 237-258): membership
gate; silent drop on failure; otherwise `user_typing` to every other
subscriber. -/
def typing (st : ServerState) (c : Conn) (channelId : Nat) (isTyping : Bool) :
    ServerState × List Output :=
  if isMember st channelId c.userId then
    (st, emitToRoomExcept st channelId c.connId
           (Payload.userTyping c.userId c.username channelId isTyping))
  else
    (st, [])

/-- The `kick_user_from_channel` socket handler (`server.js` lines
263-309): look up the channel (`Channel not found` otherwise); requester
must be the creator; then `user_kicked` to the room, eviction of every
room socket whose `userId` is the target (each gets a targeted
`force_leave_channel`), then `member_removed_notification` to the updated
room.  Note: no check that the target differs from the creator, and no
database write. -/
def kick_user_from_channel (st : ServerState) (c : Conn)
    (channelId kickedUserId : Nat) : ServerState × List Output :=
  match st.channels.find? (fun ch => ch.id == channelId) with
  | none => (st, [⟨c.connId, Payload.errorMsg "Channel not found"⟩])
  | some chan =>
    if chan.creatorId ≠ c.userId then
      (st, [⟨c.connId, Payload.errorMsg "Only channel creator can remove members"⟩])
    else
      let outsKicked := emitToRoom st channelId
        (Payload.userKicked channelId kickedUserId)
      let victims := st.conns.filter fun s =>
        (channelId, s.connId) ∈ st.rooms && s.userId == kickedUserId
      let st' := { st with rooms := st.rooms.filter fun p =>
        ¬(p.1 = channelId ∧ victims.any fun v => v.connId == p.2) }
      let outsLeave := victims.map fun v =>
        (⟨v.connId, Payload.forceLeave channelId⟩ : Output)
      let outsRemoved := emitToRoom st' channelId
        (Payload.memberRemoved channelId kickedUserId)
      (st', outsKicked ++ outsLeave ++ outsRemoved)

/-- Result of an HTTP controller call: the JSON success message or an
error status and message. -/
inductive HttpResult where
  | ok (message : String)
  | err (status : Nat) (message : String)
deriving DecidableEq, Repr

/-- The `POST /:channelId/join` controller (`channelsController.joinChannel`,
`src/unnamed/part_001` lines 95-121): reject when already a member, else
`INSERT INTO channel_members`.  An insert naming a nonexistent channel
violates the `REFERENCES channels(id)` constraint of `initDatabase.js`,
which the controller's catch turns into a 500 with no row written. -/
def joinChannel (st : ServerState) (userId channelId : Nat) :
    ServerState × HttpResult :=
  if isMember st channelId userId then
    (st, HttpResult.err 400 "Already a member of this channel")
  else if channelExists st channelId then
    ({ st with members := st.members ++ [⟨channelId, userId⟩] },
     HttpResult.ok "Successfully joined channel")
  else
    (st, HttpResult.err 500 "Server error joining channel")

/-- The `DELETE /:channelId/members/:userId` controller
(`channelsController.removeUserFromChannel`, `src/unnamed/part_001` lines
150-185): 404 when the channel is unknown, 403 when the requester is not
the creator, 400 when the target is the requester (the creator, given the
previous check), else `DELETE FROM channel_members`. -/
def removeUserFromChannel (st : ServerState) (requesterId channelId targetUserId : Nat) :
    ServerState × HttpResult :=
  match st.channels.find? (fun ch => ch.id == channelId) with
  | none => (st, HttpResult.err 404 "Channel not found")
  | some chan =>
    if chan.creatorId ≠ requesterId then
      (st, HttpResult.err 403 "Only channel creator can remove members")
    else if targetUserId = requesterId then
      (st, HttpResult.err 400 "Creator cannot be removed from channel")
    else
      ({ st with members := st.members.filter fun r =>
           ¬(r.channelId = channelId ∧ r.userId = targetUserId) },
       HttpResult.ok "User removed from channel successfully")

/-- The `POST /` controller (`channelsController.createChannel`,
`src/unnamed/part_001` lines 6-43): one transaction inserting the channel
row and the creator's membership row. -/
def createChannel (st : ServerState) (creatorId : Nat) (name description : String) :
    ServerState × Channel :=
  let ch : Channel := ⟨st.nextChannelId, name, description, creatorId⟩
  ({ st with channels := st.channels ++ [ch],
             members := st.members ++ [⟨ch.id, creatorId⟩],
             nextChannelId := st.nextChannelId + 1 }, ch)

/-- An enriched message history row (`messages` joined with `users`). -/
structure HistoryRow where
  msg : MessageRow
  username : String
  avatarColor : String
deriving DecidableEq, Repr

/-- Result of the message-history controller. -/
inductive MsgResult where
  | ok (messages : List HistoryRow)
  | err (status : Nat) (message : String)
deriving DecidableEq, Repr

/-- The channel's messages `INNER JOIN users`, in creation order (a
message whose author row is missing is dropped by the inner join). -/
def historyRows (st : ServerState) (channelId : Nat) : List HistoryRow :=
  (st.messages.filter fun m => m.channelId == channelId).filterMap fun m =>
    (st.users.find? fun u => u.id == m.userId).map fun u =>
      ⟨m, u.username, u.avatarColor⟩

/-- JavaScript `parseInt(q) || d`: a missing/unparsable value and `0` both
fall back to the default. -/
def parseIntOr (q : Option Nat) (d : Nat) : Nat :=
  match q with
  | none => d
  | some v => if v = 0 then d else v

/-- The `GET /:channelId/messages` controller
(`channelsController.getChannelMessages`, `src/unnamed/part_001` lines
190-210): `ORDER BY created_at DESC LIMIT $2 OFFSET $3`, then
`.reverse()` before responding.  `requesterId` is the authenticated
user from the route middleware; the controller body never reads it — in
particular it runs no membership check. -/
def getChannelMessages (st : ServerState) (requesterId channelId : Nat)
    (qlimit qoffset : Option Nat) : MsgResult :=
  let _ := requesterId
  let lim := parseIntOr qlimit 50
  let off := parseIntOr qoffset 0
  MsgResult.ok ((((historyRows st channelId).reverse.drop off).take lim).reverse)

/-- JavaScript `String.prototype.trim`, modelled on the string's
character list: strip leading and trailing whitespace. -/
def jsTrim (s : String) : String :=
  ⟨((s.data.dropWhile Char.isWhitespace).reverse.dropWhile Char.isWhitespace).reverse⟩

/-- The client's `MessageInput.handleSubmit`
(`src/client/src/components/Chat/MessageInput.jsx` lines 82-95): emit
nothing when disabled or when the trimmed message is empty (JS
`!message.trim()`), otherwise send the trimmed content. -/
def handleSubmit (disabled : Bool) (message : String) : Option String :=
  if disabled || jsTrim message == "" then none else some (jsTrim message)

/-- The client's `MemberList.handleRemoveMember` (`src/unnamed/part_003`
lines 164-190), the full Forced-Removal Protocol: `DELETE
/:channelId/members/:id` first; only when that succeeds, emit
`kick_user_from_channel` over the requester's socket. -/
def handleRemoveMember (st : ServerState) (requester : Conn)
    (channelId targetUserId : Nat) : ServerState × HttpResult × List Output :=
  match removeUserFromChannel st requester.userId channelId targetUserId with
  | (st1, HttpResult.ok m) =>
      let (st2, outs) := kick_user_from_channel st1 requester channelId targetUserId
      (st2, HttpResult.ok m, outs)
  | (st1, e) => (st1, e, [])

/-- One operation of the system: the membership-relevant HTTP controllers
and every socket handler. -/
inductive Op where
  | opHttpJoin (userId channelId : Nat)
  | opHttpRemove (requesterId channelId targetUserId : Nat)
  | opHttpCreate (creatorId : Nat) (name description : String)
  | opRtJoin (c : Conn) (channelId : Nat)
  | opRtLeave (c : Conn) (channelId : Nat)
  | opRtSend (c : Conn) (channelId : Nat) (content : String)
  | opRtTyping (c : Conn) (channelId : Nat) (isTyping : Bool)
  | opRtKick (c : Conn) (channelId kickedUserId : Nat)
deriving DecidableEq, Repr

/-- The state transition of each operation (outputs discarded). -/
def step (st : ServerState) : Op → ServerState
  | Op.opHttpJoin u ch => (joinChannel st u ch).1
  | Op.opHttpRemove r ch t => (removeUserFromChannel st r ch t).1
  | Op.opHttpCreate cr n d => (createChannel st cr n d).1
  | Op.opRtJoin c ch => (join_channel st c ch).1
  | Op.opRtLeave c ch => (leave_channel st c ch).1
  | Op.opRtSend c ch content => (send_message st c ch content).1
  | Op.opRtTyping c ch b => (typing st c ch b).1
  | Op.opRtKick c ch k => (kick_user_from_channel st c ch k).1

/-- The `UNIQUE(channel_id, user_id)` constraint of `channel_members`
(`initDatabase.js` line 39): at most one row per pair. -/
def membersUnique (st : ServerState) : Prop :=
  (st.members.map fun r => (r.channelId, r.userId)).Nodup

/-- Database well-formedness: member uniqueness, the `channel_members →
channels` foreign key, distinct channel ids, and freshness of the
`SERIAL` counter. -/
def WF (st : ServerState) : Prop :=
  membersUnique st ∧
  (∀ r ∈ st.members, ∃ c ∈ st.channels, c.id = r.channelId) ∧
  (st.channels.map Channel.id).Nodup ∧
  (∀ c ∈ st.channels, c.id < st.nextChannelId)

instance (st : ServerState) : Decidable (membersUnique st) := by
  unfold membersUnique; infer_instance

instance (st : ServerState) : Decidable (WF st) := by
  unfold WF; infer_instance

/-- The creator-membership invariant: every channel's creator has a
membership row for that channel. -/
def creatorIsMember (st : ServerState) : Prop :=
  ∀ c ∈ st.channels, ∃ r ∈ st.members, r.channelId = c.id ∧ r.userId = c.creatorId

instance (st : ServerState) : Decidable (creatorIsMember st) := by
  unfold creatorIsMember; infer_instance

/-- Whether a payload is an `error` event. -/
def isErrorPayload : Payload → Bool
  | Payload.errorMsg _ => true
  | _ => false

/-- Run a sequence of operations from a state. -/
def run (st : ServerState) (ops : List Op) : ServerState :=
  ops.foldl step st

/-- A concrete server state used by witnesses and counterexamples: alice
(user 1) created channel 1 and is online on connection 10; bob (user 2)
is a member and online on connections 20 and 21; all three connections
are subscribed to channel 1's room; one message exists. -/
def stBase : ServerState where
  users := [⟨1, "alice", "#111111"⟩, ⟨2, "bob", "#222222"⟩]
  channels := [⟨1, "general", "main", 1⟩]
  members := [⟨1, 1⟩, ⟨1, 2⟩]
  messages := [⟨1, 1, 1, "hi"⟩]
  rooms := [(1, 10), (1, 20), (1, 21)]
  conns := [⟨10, 1, "alice"⟩, ⟨20, 2, "bob"⟩, ⟨21, 2, "bob"⟩]
  nextChannelId := 2
  nextMessageId := 2

/-- `stBase` with bob's membership row deleted (bob's connections are
still subscribed — the post-kick race window). -/
def stSolo : ServerState := { stBase with members := [⟨1, 1⟩] }

/-- `stBase` with only alice's connection subscribed to the room. -/
def stOneRoom : ServerState := { stBase with rooms := [(1, 10)] }

lemma isMember_eq_true_iff (st : ServerState) (channelId userId : Nat) :
    isMember st channelId userId = true ↔
      ∃ r ∈ st.members, r.channelId = channelId ∧ r.userId = userId := by
  simp [isMember, List.any_eq_true, Bool.and_eq_true, beq_iff_eq]

lemma isMember_eq_false_iff (st : ServerState) (channelId userId : Nat) :
    isMember st channelId userId = false ↔
      ∀ r ∈ st.members, ¬(r.channelId = channelId ∧ r.userId = userId) := by
  constructor
  · intro h r hr hc
    have ht := (isMember_eq_true_iff st channelId userId).mpr ⟨r, hr, hc⟩
    rw [h] at ht; exact Bool.false_ne_true ht
  · intro h
    cases hm : isMember st channelId userId with
    | false => rfl
    | true =>
      obtain ⟨r, hr, hc⟩ := (isMember_eq_true_iff _ _ _).mp hm
      exact absurd hc (h r hr)

lemma channelExists_eq_true_iff (st : ServerState) (channelId : Nat) :
    channelExists st channelId = true ↔ ∃ c ∈ st.channels, c.id = channelId := by
  simp [channelExists, List.any_eq_true, beq_iff_eq]

lemma mem_subscribers_iff (st : ServerState) (channelId cid : Nat) :
    cid ∈ subscribers st channelId ↔ (channelId, cid) ∈ st.rooms := by
  simp only [subscribers, List.mem_map, List.mem_filter, beq_iff_eq]
  constructor
  · rintro ⟨⟨a, b⟩, ⟨hmem, h1⟩, h2⟩
    simp only at h1 h2
    subst h1; subst h2; exact hmem
  · intro h; exact ⟨(channelId, cid), ⟨h, rfl⟩, rfl⟩

lemma mem_emitToRoom_iff (st : ServerState) (channelId : Nat) (p : Payload)
    (o : Output) :
    o ∈ emitToRoom st channelId p ↔ o.target ∈ subscribers st channelId ∧ o.payload = p := by
  simp only [emitToRoom, List.mem_map]
  constructor
  · rintro ⟨cid, hc, rfl⟩; exact ⟨hc, rfl⟩
  · rintro ⟨h1, h2⟩
    exact ⟨o.target, h1, by cases o; simp_all⟩

lemma mem_emitToRoomExcept_iff (st : ServerState) (channelId sender : Nat)
    (p : Payload) (o : Output) :
    o ∈ emitToRoomExcept st channelId sender p ↔
      o.target ∈ subscribers st channelId ∧ o.target ≠ sender ∧ o.payload = p := by
  simp only [emitToRoomExcept, List.mem_map, List.mem_filter, decide_eq_true_eq]
  constructor
  · rintro ⟨cid, ⟨hc, hne⟩, rfl⟩; exact ⟨hc, hne, rfl⟩
  · rintro ⟨h1, h2, h3⟩
    exact ⟨o.target, ⟨h1, h2⟩, by cases o; simp_all⟩

lemma join_channel_db (st : ServerState) (c : Conn) (channelId : Nat) :
    ((join_channel st c channelId).1).members = st.members ∧
    ((join_channel st c channelId).1).channels = st.channels ∧
    ((join_channel st c channelId).1).nextChannelId = st.nextChannelId := by
  unfold join_channel
  split <;> exact ⟨rfl, rfl, rfl⟩

lemma leave_channel_db (st : ServerState) (c : Conn) (channelId : Nat) :
    ((leave_channel st c channelId).1).members = st.members ∧
    ((leave_channel st c channelId).1).channels = st.channels ∧
    ((leave_channel st c channelId).1).nextChannelId = st.nextChannelId :=
  ⟨rfl, rfl, rfl⟩

lemma send_message_db (st : ServerState) (c : Conn) (channelId : Nat)
    (content : String) :
    ((send_message st c channelId content).1).members = st.members ∧
    ((send_message st c channelId content).1).channels = st.channels ∧
    ((send_message st c channelId content).1).nextChannelId = st.nextChannelId := by
  unfold send_message
  split
  · split <;> exact ⟨rfl, rfl, rfl⟩
  · exact ⟨rfl, rfl, rfl⟩

lemma typing_db (st : ServerState) (c : Conn) (channelId : Nat) (b : Bool) :
    ((typing st c channelId b).1).members = st.members ∧
    ((typing st c channelId b).1).channels = st.channels ∧
    ((typing st c channelId b).1).nextChannelId = st.nextChannelId := by
  unfold typing
  split <;> exact ⟨rfl, rfl, rfl⟩

lemma kick_db (st : ServerState) (c : Conn) (channelId kickedUserId : Nat) :
    ((kick_user_from_channel st c channelId kickedUserId).1).members = st.members ∧
    ((kick_user_from_channel st c channelId kickedUserId).1).channels = st.channels ∧
    ((kick_user_from_channel st c channelId kickedUserId).1).nextChannelId
      = st.nextChannelId := by
  unfold kick_user_from_channel
  split
  · exact ⟨rfl, rfl, rfl⟩
  · split <;> exact ⟨rfl, rfl, rfl⟩

/-- C1: a `send_message` request from a connection whose user is not a
current member of the channel persists no message row, triggers no
broadcast, and the sender receives exactly the `NotAMember` error event
together with the `force_leave_channel{channelId}` instruction.  The gate
is re-run fresh on every send: `send_message` reads the current
`st.members` on each call and the rejection below holds for every state
in which the membership row is absent at that moment, whatever earlier
states looked like. -/
theorem send_message_nonmember_rejected (st : ServerState) (c : Conn)
    (channelId : Nat) (content : String)
    (h : isMember st channelId c.userId = false) :
    send_message st c channelId content =
      (st, [⟨c.connId, Payload.errorMsg "You are not a member of this channel"⟩,
            ⟨c.connId, Payload.forceLeave channelId⟩]) := by
  simp [send_message, h]

/-- Witness for C1: bob's membership row for channel 1 is gone while his
connection 20 still believes itself subscribed; the send is rejected with
the error plus the force-leave instruction and the state is untouched. -/
theorem send_message_nonmember_rejected_witness :
    isMember stSolo 1 2 = false ∧
    send_message stSolo ⟨20, 2, "bob"⟩ 1 "hello" =
      (stSolo, [⟨20, Payload.errorMsg "You are not a member of this channel"⟩,
                ⟨20, Payload.forceLeave 1⟩]) :=
  ⟨by decide,
   send_message_nonmember_rejected stSolo ⟨20, 2, "bob"⟩ 1 "hello" (by decide)⟩

/-- C6: no real-time socket event handler writes the `channel_members`
table: `join_channel`, `leave_channel`, `typing`,
`kick_user_from_channel` (and `send_message` as well) leave `st.members`
unchanged for every input; in particular the real-time kick evicts and
notifies without deleting the membership row. -/
theorem rt_handlers_preserve_members (st : ServerState) (c : Conn)
    (channelId kickedUserId : Nat) (content : String) (b : Bool) :
    ((join_channel st c channelId).1).members = st.members ∧
    ((leave_channel st c channelId).1).members = st.members ∧
    ((typing st c channelId b).1).members = st.members ∧
    ((kick_user_from_channel st c channelId kickedUserId).1).members = st.members ∧
    ((send_message st c channelId content).1).members = st.members :=
  ⟨(join_channel_db st c channelId).1, (leave_channel_db st c channelId).1,
   (typing_db st c channelId b).1, (kick_db st c channelId kickedUserId).1,
   (send_message_db st c channelId content).1⟩

/-- C7: the `typing` handler checks the membership gate first and never
changes state; when the gate fails the signal is silently dropped — no
output at all, so no error event and no force-leave; when the gate passes,
`user_typing` reaches every other subscriber of the room; and every
output of the handler is a `user_typing` event addressed to a connection
other than the sender. -/
theorem typing_gate_spec (st : ServerState) (c : Conn) (channelId : Nat)
    (b : Bool) :
    (typing st c channelId b).1 = st ∧
    (isMember st channelId c.userId = false → (typing st c channelId b).2 = []) ∧
    (isMember st channelId c.userId = true →
      ∀ cid ∈ subscribers st channelId, cid ≠ c.connId →
        (⟨cid, Payload.userTyping c.userId c.username channelId b⟩ : Output)
          ∈ (typing st c channelId b).2) ∧
    (∀ o ∈ (typing st c channelId b).2,
      o.payload = Payload.userTyping c.userId c.username channelId b ∧
      o.target ≠ c.connId) := by
  cases hm : isMember st channelId c.userId with
  | false =>
    refine ⟨by simp [typing, hm], by simp [typing, hm], ?_, ?_⟩
    · intro hcontra; exact absurd hcontra (by simp)
    · intro o ho; rw [show (typing st c channelId b).2 = [] by simp [typing, hm]] at ho
      exact absurd ho (List.not_mem_nil o)
  | true =>
    have h2 : (typing st c channelId b).2 =
        emitToRoomExcept st channelId c.connId
          (Payload.userTyping c.userId c.username channelId b) := by
      simp [typing, hm]
    refine ⟨by simp [typing, hm], ?_, ?_, ?_⟩
    · intro hcontra; exact absurd hcontra (by simp)
    · intro _ cid hcid hne
      rw [h2]
      exact (mem_emitToRoomExcept_iff st channelId c.connId _ _).mpr ⟨hcid, hne, rfl⟩
    · intro o ho
      rw [h2] at ho
      have hmem := (mem_emitToRoomExcept_iff st channelId c.connId _ o).mp ho
      exact ⟨hmem.2.2, hmem.2.1⟩

/-- Witness for C7: with bob a member, his typing signal from connection
20 reaches the other subscriber 10; with bob's membership row deleted,
the same signal produces no output at all. -/
theorem typing_gate_spec_witness :
    (⟨10, Payload.userTyping 2 "bob" 1 true⟩ : Output)
      ∈ (typing stBase ⟨20, 2, "bob"⟩ 1 true).2 ∧
    (typing stSolo ⟨20, 2, "bob"⟩ 1 true).2 = [] :=
  ⟨(typing_gate_spec stBase ⟨20, 2, "bob"⟩ 1 true).2.2.1 (by decide) 10
     (by decide) (by decide),
   (typing_gate_spec stSolo ⟨20, 2, "bob"⟩ 1 true).2.1 (by decide)⟩

/-- C10: `leave_channel` for a connection that is not subscribed to the
channel's room is a no-op on the whole server state — the room's
subscriber set, the membership table, and every other room are unchanged
— and none of its outputs is an error event. -/
theorem leave_channel_idempotent (st : ServerState) (c : Conn) (channelId : Nat)
    (h : (channelId, c.connId) ∉ st.rooms) :
    (leave_channel st c channelId).1 = st ∧
    ∀ o ∈ (leave_channel st c channelId).2, isErrorPayload o.payload = false := by
  constructor
  · have hr : (st.rooms.filter fun p => p ≠ (channelId, c.connId)) = st.rooms := by
      rw [List.filter_eq_self]
      intro a ha
      simp only [decide_eq_true_eq]
      rintro rfl
      exact h ha
    show ({ st with rooms := st.rooms.filter fun p => p ≠ (channelId, c.connId) }
           : ServerState) = st
    rw [hr]
  · intro o ho
    have hmem := (mem_emitToRoomExcept_iff _ channelId c.connId _ o).mp ho
    rw [hmem.2.2]
    rfl

/-- Witness for C10: bob's connection 21 is not subscribed to channel 1's
room in `stOneRoom`; `leave_channel` leaves the state exactly as it was. -/
theorem leave_channel_idempotent_witness :
    ((1, 21) ∉ stOneRoom.rooms) ∧
    (leave_channel stOneRoom ⟨21, 2, "bob"⟩ 1).1 = stOneRoom :=
  ⟨by decide, (leave_channel_idempotent stOneRoom ⟨21, 2, "bob"⟩ 1 (by decide)).1⟩

lemma mem_joinRoomList_self (rooms : List (Nat × Nat)) (channelId cid : Nat) :
    (channelId, cid) ∈ joinRoomList rooms channelId cid := by
  unfold joinRoomList
  split
  · assumption
  · exact List.mem_append_right _ (List.mem_singleton.mpr rfl)

/-- C9: on a `join_channel` that passes the membership gate, the joiner's
connection is subscribed afterwards; every *other* subscriber of the room
receives `user_joined` while the joiner never does; every subscriber —
the joiner included — receives `room_info` whose `onlineCount` is the
room's live subscriber count after the join (the number of subscribed
connections at call time, not the persisted membership count); and the
output list splits as the `user_joined` notifications followed by the
`room_info` broadcast, in that order. -/
theorem join_broadcast_spec (st : ServerState) (c : Conn) (channelId : Nat)
    (st2 : ServerState) (outs : List Output)
    (h : isMember st channelId c.userId = true)
    (heq : join_channel st c channelId = (st2, outs)) :
    c.connId ∈ subscribers st2 channelId ∧
    (∀ cid ∈ subscribers st2 channelId, cid ≠ c.connId →
       (⟨cid, Payload.userJoined c.userId c.username channelId⟩ : Output) ∈ outs) ∧
    (⟨c.connId, Payload.userJoined c.userId c.username channelId⟩ : Output) ∉ outs ∧
    (∀ cid ∈ subscribers st2 channelId,
       (⟨cid, Payload.roomInfo channelId (subscribers st2 channelId).length⟩ : Output)
         ∈ outs) ∧
    ∃ A B, outs = A ++ B ∧
      (∀ o ∈ A, o.payload = Payload.userJoined c.userId c.username channelId ∧
         o.target ≠ c.connId) ∧
      (∀ o ∈ B,
         o.payload = Payload.roomInfo channelId (subscribers st2 channelId).length) := by
  have hst2 : st2 = (join_channel st c channelId).1 := by rw [heq]
  have houts : outs = (join_channel st c channelId).2 := by rw [heq]
  subst hst2; subst houts
  have hfst : (join_channel st c channelId).1 =
      { st with rooms := joinRoomList st.rooms channelId c.connId } := by
    simp [join_channel, h]
  have hsnd : (join_channel st c channelId).2 =
      emitToRoomExcept { st with rooms := joinRoomList st.rooms channelId c.connId }
          channelId c.connId (Payload.userJoined c.userId c.username channelId) ++
        emitToRoom { st with rooms := joinRoomList st.rooms channelId c.connId }
          channelId
          (Payload.roomInfo channelId
            (subscribers { st with rooms := joinRoomList st.rooms channelId c.connId }
              channelId).length) := by
    simp [join_channel, h]
  rw [hfst, hsnd]
  refine ⟨?_, ?_, ?_, ?_, ?_⟩
  · exact (mem_subscribers_iff _ channelId c.connId).mpr
      (mem_joinRoomList_self st.rooms channelId c.connId)
  · intro cid hcid hne
    exact List.mem_append_left _
      ((mem_emitToRoomExcept_iff _ channelId c.connId _ _).mpr ⟨hcid, hne, rfl⟩)
  · intro hmem
    rcases List.mem_append.mp hmem with hl | hr
    · exact ((mem_emitToRoomExcept_iff _ channelId c.connId _ _).mp hl).2.1 rfl
    · exact Payload.noConfusion ((mem_emitToRoom_iff _ channelId _ _).mp hr).2
  · intro cid hcid
    exact List.mem_append_right _
      ((mem_emitToRoom_iff _ channelId _ _).mpr ⟨hcid, rfl⟩)
  · refine ⟨_, _, rfl, ?_, ?_⟩
    · intro o ho
      have hmem := (mem_emitToRoomExcept_iff _ channelId c.connId _ o).mp ho
      exact ⟨hmem.2.2, hmem.2.1⟩
    · intro o ho
      exact ((mem_emitToRoom_iff _ channelId _ o).mp ho).2

/-- Witness for C9: bob joins channel 1 while only alice's connection 10
is subscribed; alice receives `user_joined` and both connections receive
`room_info` with `onlineCount` 2, the live subscriber count. -/
theorem join_broadcast_spec_witness :
    isMember stOneRoom 1 2 = true ∧
    (⟨10, Payload.userJoined 2 "bob" 1⟩ : Output)
      ∈ (join_channel stOneRoom ⟨20, 2, "bob"⟩ 1).2 ∧
    (⟨20, Payload.roomInfo 1 2⟩ : Output)
      ∈ (join_channel stOneRoom ⟨20, 2, "bob"⟩ 1).2 := by
  have h := join_broadcast_spec stOneRoom ⟨20, 2, "bob"⟩ 1
    (join_channel stOneRoom ⟨20, 2, "bob"⟩ 1).1
    (join_channel stOneRoom ⟨20, 2, "bob"⟩ 1).2 (by decide) rfl
  refine ⟨by decide, h.2.1 10 (by decide) (by decide), ?_⟩
  have h20 := h.2.2.2.1 20 (by decide)
  have hlen : (subscribers (join_channel stOneRoom ⟨20, 2, "bob"⟩ 1).1 1).length = 2 := by
    decide
  rw [hlen] at h20
  exact h20

lemma kick_authorized (st : ServerState) (c : Conn) (channelId kickedUserId : Nat)
    (chan : Channel)
    (hfind : st.channels.find? (fun ch => ch.id == channelId) = some chan)
    (hcr : chan.creatorId = c.userId) :
    (kick_user_from_channel st c channelId kickedUserId).1.rooms =
      (st.rooms.filter fun p => ¬(p.1 = channelId ∧
        ((st.conns.filter fun s =>
            (channelId, s.connId) ∈ st.rooms && s.userId == kickedUserId).any
          fun v => v.connId == p.2))) ∧
    ∀ s ∈ st.conns, (channelId, s.connId) ∈ st.rooms → s.userId = kickedUserId →
      (⟨s.connId, Payload.forceLeave channelId⟩ : Output)
        ∈ (kick_user_from_channel st c channelId kickedUserId).2 := by
  have hk1 : (kick_user_from_channel st c channelId kickedUserId) =
      ({ st with rooms := st.rooms.filter fun p => ¬(p.1 = channelId ∧
           ((st.conns.filter fun s =>
               (channelId, s.connId) ∈ st.rooms && s.userId == kickedUserId).any
             fun v => v.connId == p.2)) },
       emitToRoom st channelId (Payload.userKicked channelId kickedUserId) ++
         ((st.conns.filter fun s =>
             (channelId, s.connId) ∈ st.rooms && s.userId == kickedUserId).map
           fun v => (⟨v.connId, Payload.forceLeave channelId⟩ : Output)) ++
         emitToRoom
           { st with rooms := st.rooms.filter fun p => ¬(p.1 = channelId ∧
              ((st.conns.filter fun s =>
                  (channelId, s.connId) ∈ st.rooms && s.userId == kickedUserId).any
                fun v => v.connId == p.2)) }
           channelId (Payload.memberRemoved channelId kickedUserId)) := by
    simp only [kick_user_from_channel, hfind]
    rw [if_neg (by simp [hcr])]
  refine ⟨by rw [hk1], ?_⟩
  intro s hs hroom huser
  rw [hk1]
  refine List.mem_append_left _ (List.mem_append_right _ ?_)
  refine List.mem_map.mpr ⟨s, ?_, rfl⟩
  refine List.mem_filter.mpr ⟨hs, ?_⟩
  simp [hroom, huser]

/-- C2: one completed run of the Forced-Removal Protocol — the client's
`handleRemoveMember`, which issues the HTTP membership deletion and, on
its success, the real-time `kick_user_from_channel` — leaves the target
with no membership row for the channel (`isMember` false), removes every
live connection of the target that was subscribed to the channel's room
(covering multiple simultaneous connections of one user) from the
subscriber set, and delivers a targeted `force_leave_channel{channelId}`
to each such connection individually. -/
theorem forced_removal_postcondition (st : ServerState) (requester : Conn)
    (channelId targetUserId : Nat) (chan : Channel)
    (hfind : st.channels.find? (fun ch => ch.id == channelId) = some chan)
    (hcr : chan.creatorId = requester.userId)
    (hne : targetUserId ≠ requester.userId) :
    isMember (handleRemoveMember st requester channelId targetUserId).1
      channelId targetUserId = false ∧
    ∀ c ∈ st.conns, c.userId = targetUserId →
      ((channelId, c.connId)
          ∉ (handleRemoveMember st requester channelId targetUserId).1.rooms ∧
       ((channelId, c.connId) ∈ st.rooms →
          (⟨c.connId, Payload.forceLeave channelId⟩ : Output)
            ∈ (handleRemoveMember st requester channelId targetUserId).2.2)) := by
  have hrm : removeUserFromChannel st requester.userId channelId targetUserId =
      ({ st with members := st.members.filter fun r =>
           ¬(r.channelId = channelId ∧ r.userId = targetUserId) },
       HttpResult.ok "User removed from channel successfully") := by
    simp only [removeUserFromChannel, hfind]
    rw [if_neg (by simp [hcr]), if_neg hne]
  have hh1 : (handleRemoveMember st requester channelId targetUserId).1 =
      (kick_user_from_channel
        { st with members := st.members.filter fun r =>
            ¬(r.channelId = channelId ∧ r.userId = targetUserId) }
        requester channelId targetUserId).1 := by
    unfold handleRemoveMember
    rw [hrm]
  have hh2 : (handleRemoveMember st requester channelId targetUserId).2.2 =
      (kick_user_from_channel
        { st with members := st.members.filter fun r =>
            ¬(r.channelId = channelId ∧ r.userId = targetUserId) }
        requester channelId targetUserId).2 := by
    unfold handleRemoveMember
    rw [hrm]
  obtain ⟨hrooms, hfl⟩ := kick_authorized
    { st with members := st.members.filter fun r =>
        ¬(r.channelId = channelId ∧ r.userId = targetUserId) }
    requester channelId targetUserId chan hfind hcr
  constructor
  · rw [hh1]
    rw [isMember_eq_false_iff]
    intro r hr
    rw [(kick_db _ requester channelId targetUserId).1] at hr
    have h2 := (List.mem_filter.mp hr).2
    simp only [decide_eq_true_eq] at h2
    exact h2
  · intro c hc huser
    constructor
    · rw [hh1]
      intro hmem
      rw [hrooms] at hmem
      have hsplit := List.mem_filter.mp hmem
      simp only [decide_eq_true_eq] at hsplit
      refine hsplit.2 ⟨by trivial, ?_⟩
      rw [List.any_eq_true]
      refine ⟨c, List.mem_filter.mpr ⟨hc, ?_⟩, by simp⟩
      simp [hsplit.1, huser]
    · intro hroom
      rw [hh2]
      exact hfl c hc hroom huser

/-- Witness for C2: alice kicks bob, who is online on two simultaneous
connections 20 and 21, both subscribed to channel 1's room; afterwards
bob's membership row is gone, both connections are out of the subscriber
set, and each received its own `force_leave_channel`. -/
theorem forced_removal_postcondition_witness :
    isMember (handleRemoveMember stBase ⟨10, 1, "alice"⟩ 1 2).1 1 2 = false ∧
    (1, 20) ∉ (handleRemoveMember stBase ⟨10, 1, "alice"⟩ 1 2).1.rooms ∧
    (1, 21) ∉ (handleRemoveMember stBase ⟨10, 1, "alice"⟩ 1 2).1.rooms ∧
    (⟨20, Payload.forceLeave 1⟩ : Output)
      ∈ (handleRemoveMember stBase ⟨10, 1, "alice"⟩ 1 2).2.2 ∧
    (⟨21, Payload.forceLeave 1⟩ : Output)
      ∈ (handleRemoveMember stBase ⟨10, 1, "alice"⟩ 1 2).2.2 := by
  have h := forced_removal_postcondition stBase ⟨10, 1, "alice"⟩ 1 2
    ⟨1, "general", "main", 1⟩ (by decide) rfl (by decide)
  have h20 := h.2 ⟨20, 2, "bob"⟩ (by decide) rfl
  have h21 := h.2 ⟨21, 2, "bob"⟩ (by decide) rfl
  exact ⟨h.1, h20.1, h21.1, h20.2 (by decide), h21.2 (by decide)⟩

lemma WF_congr (st st' : ServerState) (hm : st'.members = st.members)
    (hc : st'.channels = st.channels) (hn : st'.nextChannelId = st.nextChannelId)
    (h : WF st) : WF st' := by
  unfold WF membersUnique at h ⊢
  rw [hm, hc, hn]
  exact h

lemma creator_congr (st st' : ServerState) (hm : st'.members = st.members)
    (hc : st'.channels = st.channels) (h : creatorIsMember st) :
    creatorIsMember st' := by
  unfold creatorIsMember at h ⊢
  rw [hm, hc]
  exact h

lemma memberPairs_append (l : List MemberRow) (x : MemberRow) :
    ((l ++ [x]).map fun r => (r.channelId, r.userId)) =
      (l.map fun r => (r.channelId, r.userId)) ++ [(x.channelId, x.userId)] := by
  simp

lemma removeUser_none (st : ServerState) (requesterId channelId targetUserId : Nat)
    (hfind : st.channels.find? (fun ch => ch.id == channelId) = none) :
    removeUserFromChannel st requesterId channelId targetUserId =
      (st, HttpResult.err 404 "Channel not found") := by
  simp only [removeUserFromChannel, hfind]

lemma removeUser_forbidden (st : ServerState)
    (requesterId channelId targetUserId : Nat) (chan : Channel)
    (hfind : st.channels.find? (fun ch => ch.id == channelId) = some chan)
    (h1 : chan.creatorId ≠ requesterId) :
    removeUserFromChannel st requesterId channelId targetUserId =
      (st, HttpResult.err 403 "Only channel creator can remove members") := by
  simp only [removeUserFromChannel, hfind]
  rw [if_pos h1]

lemma removeUser_creator (st : ServerState)
    (requesterId channelId targetUserId : Nat) (chan : Channel)
    (hfind : st.channels.find? (fun ch => ch.id == channelId) = some chan)
    (h1 : chan.creatorId = requesterId) (h2 : targetUserId = requesterId) :
    removeUserFromChannel st requesterId channelId targetUserId =
      (st, HttpResult.err 400 "Creator cannot be removed from channel") := by
  simp only [removeUserFromChannel, hfind]
  rw [if_neg (by simp [h1]), if_pos h2]

lemma removeUser_delete (st : ServerState)
    (requesterId channelId targetUserId : Nat) (chan : Channel)
    (hfind : st.channels.find? (fun ch => ch.id == channelId) = some chan)
    (h1 : chan.creatorId = requesterId) (h2 : targetUserId ≠ requesterId) :
    removeUserFromChannel st requesterId channelId targetUserId =
      ({ st with members := st.members.filter fun r =>
           ¬(r.channelId = channelId ∧ r.userId = targetUserId) },
       HttpResult.ok "User removed from channel successfully") := by
  simp only [removeUserFromChannel, hfind]
  rw [if_neg (by simp [h1]), if_neg h2]

lemma WF_joinChannel (st : ServerState) (userId channelId : Nat) (h : WF st) :
    WF (joinChannel st userId channelId).1 := by
  unfold joinChannel
  by_cases hm : isMember st channelId userId = true
  · rw [if_pos hm]; exact h
  · rw [if_neg hm]
    by_cases hc : channelExists st channelId = true
    · rw [if_pos hc]
      unfold WF membersUnique at h ⊢
      obtain ⟨u1, u2, u3, u4⟩ := h
      refine ⟨?_, ?_, u3, u4⟩
      · show ((st.members ++ [(⟨channelId, userId⟩ : MemberRow)]).map
          fun r => (r.channelId, r.userId)).Nodup
        rw [memberPairs_append, List.nodup_append]
        refine ⟨u1, List.nodup_singleton _, ?_⟩
        intro p hp hp2
        rw [List.mem_singleton] at hp2
        subst hp2
        obtain ⟨r, hr, heq⟩ := List.mem_map.mp hp
        have heq2 : r.channelId = channelId ∧ r.userId = userId := by
          simpa [Prod.ext_iff] using heq
        exact hm ((isMember_eq_true_iff st channelId userId).mpr ⟨r, hr, heq2⟩)
      · intro r hr
        rcases List.mem_append.mp hr with hl | hl
        · exact u2 r hl
        · rw [List.mem_singleton] at hl
          subst hl
          obtain ⟨c0, hc0, hid⟩ := (channelExists_eq_true_iff st channelId).mp hc
          exact ⟨c0, hc0, hid⟩
    · rw [if_neg hc]; exact h

lemma WF_removeUserFromChannel (st : ServerState)
    (requesterId channelId targetUserId : Nat) (h : WF st) :
    WF (removeUserFromChannel st requesterId channelId targetUserId).1 := by
  cases hfind : st.channels.find? (fun ch => ch.id == channelId) with
  | none =>
    rw [removeUser_none st requesterId channelId targetUserId hfind]
    exact h
  | some chan =>
    by_cases h1 : chan.creatorId = requesterId
    · by_cases h2 : targetUserId = requesterId
      · rw [removeUser_creator st requesterId channelId targetUserId chan hfind h1 h2]
        exact h
      · rw [removeUser_delete st requesterId channelId targetUserId chan hfind h1 h2]
        unfold WF membersUnique at h ⊢
        obtain ⟨u1, u2, u3, u4⟩ := h
        refine ⟨?_, ?_, u3, u4⟩
        · exact List.Nodup.sublist ((List.filter_sublist _).map _) u1
        · intro r hr
          exact u2 r (List.mem_of_mem_filter hr)
    · rw [removeUser_forbidden st requesterId channelId targetUserId chan hfind h1]
      exact h

lemma WF_createChannel (st : ServerState) (creatorId : Nat) (name description : String)
    (h : WF st) : WF (createChannel st creatorId name description).1 := by
  unfold WF membersUnique at h ⊢
  obtain ⟨u1, u2, u3, u4⟩ := h
  refine ⟨?_, ?_, ?_, ?_⟩
  · show ((st.members ++ [(⟨st.nextChannelId, creatorId⟩ : MemberRow)]).map
      fun r => (r.channelId, r.userId)).Nodup
    rw [memberPairs_append, List.nodup_append]
    refine ⟨u1, List.nodup_singleton _, ?_⟩
    intro p hp hp2
    rw [List.mem_singleton] at hp2
    subst hp2
    obtain ⟨r, hr, heq⟩ := List.mem_map.mp hp
    have hch : r.channelId = st.nextChannelId := by
      have := congrArg Prod.fst heq
      simpa using this
    obtain ⟨c0, hc0, hid⟩ := u2 r hr
    have := u4 c0 hc0
    omega
  · show ∀ r ∈ st.members ++ [(⟨st.nextChannelId, creatorId⟩ : MemberRow)],
      ∃ c ∈ st.channels ++ [(⟨st.nextChannelId, name, description, creatorId⟩ : Channel)],
        c.id = r.channelId
    intro r hr
    rcases List.mem_append.mp hr with hl | hl
    · obtain ⟨c0, hc0, hid⟩ := u2 r hl
      exact ⟨c0, List.mem_append_left _ hc0, hid⟩
    · rw [List.mem_singleton] at hl
      subst hl
      exact ⟨⟨st.nextChannelId, name, description, creatorId⟩,
        List.mem_append_right _ (List.mem_singleton.mpr rfl), rfl⟩
  · show ((st.channels ++ [(⟨st.nextChannelId, name, description, creatorId⟩ : Channel)]).map
      Channel.id).Nodup
    rw [List.map_append, List.nodup_append]
    refine ⟨u3, by simp, ?_⟩
    intro i hi hi2
    simp only [List.map_cons, List.map_nil, List.mem_singleton] at hi2
    subst hi2
    obtain ⟨c0, hc0, hid⟩ := List.mem_map.mp hi
    have := u4 c0 hc0
    omega
  · show ∀ c ∈ st.channels ++ [(⟨st.nextChannelId, name, description, creatorId⟩ : Channel)],
      c.id < st.nextChannelId + 1
    intro c hc
    rcases List.mem_append.mp hc with hl | hl
    · have := u4 c hl
      omega
    · rw [List.mem_singleton] at hl
      subst hl
      show st.nextChannelId < st.nextChannelId + 1
      omega

lemma WF_step (st : ServerState) (op : Op) (h : WF st) : WF (step st op) := by
  cases op with
  | opHttpJoin u ch => exact WF_joinChannel st u ch h
  | opHttpRemove r ch t => exact WF_removeUserFromChannel st r ch t h
  | opHttpCreate cr n d => exact WF_createChannel st cr n d h
  | opRtJoin c ch =>
    exact WF_congr st _ (join_channel_db st c ch).1 (join_channel_db st c ch).2.1
      (join_channel_db st c ch).2.2 h
  | opRtLeave c ch =>
    exact WF_congr st _ (leave_channel_db st c ch).1 (leave_channel_db st c ch).2.1
      (leave_channel_db st c ch).2.2 h
  | opRtSend c ch content =>
    exact WF_congr st _ (send_message_db st c ch content).1
      (send_message_db st c ch content).2.1 (send_message_db st c ch content).2.2 h
  | opRtTyping c ch b =>
    exact WF_congr st _ (typing_db st c ch b).1 (typing_db st c ch b).2.1
      (typing_db st c ch b).2.2 h
  | opRtKick c ch k =>
    exact WF_congr st _ (kick_db st c ch k).1 (kick_db st c ch k).2.1
      (kick_db st c ch k).2.2 h

lemma WF_run (st : ServerState) (ops : List Op) (h : WF st) : WF (run st ops) := by
  induction ops generalizing st with
  | nil => exact h
  | cons op ops ih => exact ih (step st op) (WF_step st op h)

lemma creator_joinChannel (st : ServerState) (userId channelId : Nat)
    (h : creatorIsMember st) : creatorIsMember (joinChannel st userId channelId).1 := by
  unfold joinChannel
  by_cases hm : isMember st channelId userId = true
  · rw [if_pos hm]; exact h
  · rw [if_neg hm]
    by_cases hc : channelExists st channelId = true
    · rw [if_pos hc]
      unfold creatorIsMember at h ⊢
      intro c hcm
      obtain ⟨r, hr, hh⟩ := h c hcm
      exact ⟨r, List.mem_append_left _ hr, hh⟩
    · rw [if_neg hc]; exact h

lemma creator_removeUserFromChannel (st : ServerState)
    (requesterId channelId targetUserId : Nat) (hwf : WF st)
    (h : creatorIsMember st) :
    creatorIsMember (removeUserFromChannel st requesterId channelId targetUserId).1 := by
  cases hfind : st.channels.find? (fun ch => ch.id == channelId) with
  | none =>
    rw [removeUser_none st requesterId channelId targetUserId hfind]
    exact h
  | some chan =>
    by_cases h1 : chan.creatorId = requesterId
    · by_cases h2 : targetUserId = requesterId
      · rw [removeUser_creator st requesterId channelId targetUserId chan hfind h1 h2]
        exact h
      · rw [removeUser_delete st requesterId channelId targetUserId chan hfind h1 h2]
        unfold creatorIsMember at h ⊢
        intro c hc
        obtain ⟨row, hrow, hrc, hru⟩ := h c hc
        refine ⟨row, List.mem_filter.mpr ⟨hrow, ?_⟩, hrc, hru⟩
        simp only [decide_eq_true_eq]
        rintro ⟨hch, ht⟩
        have hchan_mem := List.mem_of_find?_eq_some hfind
        have hchan_id : chan.id = channelId := by
          have := List.find?_some hfind
          simpa [beq_iff_eq] using this
        have hceq : c = chan :=
          List.inj_on_of_nodup_map hwf.2.2.1 hc hchan_mem
            (by rw [hchan_id, ← hrc, hch])
        apply h2
        rw [← ht, hru, hceq, h1]
    · rw [removeUser_forbidden st requesterId channelId targetUserId chan hfind h1]
      exact h

lemma creator_createChannel (st : ServerState) (creatorId : Nat)
    (name description : String) (h : creatorIsMember st) :
    creatorIsMember (createChannel st creatorId name description).1 := by
  unfold creatorIsMember at h ⊢
  show ∀ c ∈ st.channels ++ [(⟨st.nextChannelId, name, description, creatorId⟩ : Channel)],
    ∃ r ∈ st.members ++ [(⟨st.nextChannelId, creatorId⟩ : MemberRow)],
      r.channelId = c.id ∧ r.userId = c.creatorId
  intro c hc
  rcases List.mem_append.mp hc with hl | hl
  · obtain ⟨r, hr, hh⟩ := h c hl
    exact ⟨r, List.mem_append_left _ hr, hh⟩
  · rw [List.mem_singleton] at hl
    subst hl
    exact ⟨⟨st.nextChannelId, creatorId⟩,
      List.mem_append_right _ (List.mem_singleton.mpr rfl), rfl, rfl⟩

lemma creator_step (st : ServerState) (op : Op) (hwf : WF st)
    (h : creatorIsMember st) : creatorIsMember (step st op) := by
  cases op with
  | opHttpJoin u ch => exact creator_joinChannel st u ch h
  | opHttpRemove r ch t => exact creator_removeUserFromChannel st r ch t hwf h
  | opHttpCreate cr n d => exact creator_createChannel st cr n d h
  | opRtJoin c ch =>
    exact creator_congr st _ (join_channel_db st c ch).1 (join_channel_db st c ch).2.1 h
  | opRtLeave c ch =>
    exact creator_congr st _ (leave_channel_db st c ch).1
      (leave_channel_db st c ch).2.1 h
  | opRtSend c ch content =>
    exact creator_congr st _ (send_message_db st c ch content).1
      (send_message_db st c ch content).2.1 h
  | opRtTyping c ch b =>
    exact creator_congr st _ (typing_db st c ch b).1 (typing_db st c ch b).2.1 h
  | opRtKick c ch k =>
    exact creator_congr st _ (kick_db st c ch k).1 (kick_db st c ch k).2.1 h

lemma creator_run (st : ServerState) (ops : List Op) (hwf : WF st)
    (h : creatorIsMember st) : creatorIsMember (run st ops) := by
  induction ops generalizing st with
  | nil => exact h
  | cons op ops ih => exact ih (step st op) (WF_step st op hwf) (creator_step st op hwf h)

/-- C3 counterexample: a real-time `kick_user_from_channel` whose target
is the channel creator does not fail — alice (creator of channel 1, whose
connection 10 is subscribed) kicks herself: the handler emits no error
event at all and proceeds to evict her connection from the room.  This
refutes the claim that *every* kick attempt naming the creator fails with
`CannotRemoveCreator`. -/
theorem rt_kick_creator_not_rejected_cex :
    (∀ o ∈ (kick_user_from_channel stBase ⟨10, 1, "alice"⟩ 1 1).2,
       isErrorPayload o.payload = false) ∧
    (1, 10) ∈ stBase.rooms ∧
    (1, 10) ∉ (kick_user_from_channel stBase ⟨10, 1, "alice"⟩ 1 1).1.rooms := by
  decide

/-- C3 amended: only the HTTP kick rejects a creator target — when the
target is the channel's creator, `removeUserFromChannel` never changes the
state, and returns `CannotRemoveCreator` (400) whenever the requester is
the creator; the real-time kick handler has no creator-target check but
never modifies the `channel_members` table; consequently the creator stays
a member of their channel (`creatorIsMember`) after any sequence of
operations from a well-formed state. -/
theorem creator_kick_amended :
    (∀ (st : ServerState) (requesterId channelId targetUserId : Nat)
       (chan : Channel),
       st.channels.find? (fun ch => ch.id == channelId) = some chan →
       targetUserId = chan.creatorId →
       ((removeUserFromChannel st requesterId channelId targetUserId).1 = st ∧
        (requesterId = chan.creatorId →
          (removeUserFromChannel st requesterId channelId targetUserId).2 =
            HttpResult.err 400 "Creator cannot be removed from channel"))) ∧
    (∀ (st : ServerState) (c : Conn) (channelId kickedUserId : Nat),
       ((kick_user_from_channel st c channelId kickedUserId).1).members
         = st.members) ∧
    (∀ (st : ServerState) (ops : List Op), WF st → creatorIsMember st →
       creatorIsMember (run st ops)) := by
  refine ⟨?_, ?_, ?_⟩
  · intro st requesterId channelId targetUserId chan hfind ht
    by_cases h1 : chan.creatorId = requesterId
    · have e1 := removeUser_creator st requesterId channelId targetUserId chan
        hfind h1 (by rw [ht, h1])
      exact ⟨by rw [e1], fun _ => by rw [e1]⟩
    · have e1 := removeUser_forbidden st requesterId channelId targetUserId chan
        hfind h1
      exact ⟨by rw [e1], fun hr => absurd hr.symm h1⟩
  · intro st c channelId kickedUserId
    exact (kick_db st c channelId kickedUserId).1
  · intro st ops hwf h
    exact creator_run st ops hwf h

/-- Witness for the amended C3: alice (creator) tries to remove herself
over HTTP and gets the 400 with unchanged state, and the creator is still
a member after a real-time self-kick followed by an HTTP kick of bob. -/
theorem creator_kick_amended_witness :
    (removeUserFromChannel stBase 1 1 1).1 = stBase ∧
    (removeUserFromChannel stBase 1 1 1).2 =
      HttpResult.err 400 "Creator cannot be removed from channel" ∧
    creatorIsMember
      (run stBase [Op.opRtKick ⟨10, 1, "alice"⟩ 1 1, Op.opHttpRemove 1 1 2]) := by
  have h1 := creator_kick_amended.1 stBase 1 1 1 ⟨1, "general", "main", 1⟩
    (by decide) rfl
  exact ⟨h1.1, h1.2 rfl,
    creator_kick_amended.2.2 stBase [Op.opRtKick ⟨10, 1, "alice"⟩ 1 1,
      Op.opHttpRemove 1 1 2] (by decide) (by decide)⟩

/-- C4 counterexample: a member's `send_message` whose content is the
single space — whitespace-only, empty after trimming — is persisted as a
message row and broadcast to the whole room: the server-side pipeline has
no `InvalidContent` check. -/
theorem whitespace_message_persisted_cex :
    jsTrim " " = "" ∧
    isMember stBase 1 2 = true ∧
    (send_message stBase ⟨20, 2, "bob"⟩ 1 " ").1.messages =
      stBase.messages ++ [⟨2, 1, 2, " "⟩] ∧
    (⟨10, Payload.newMessage ⟨2, 1, 2, " "⟩ "bob" "#222222"⟩ : Output)
      ∈ (send_message stBase ⟨20, 2, "bob"⟩ 1 " ").2 := by
  decide

/-- C4 amended: the empty / whitespace-only rejection lives only in the
client — `MessageInput.handleSubmit` emits nothing when the trimmed
message is empty — while the server-side `send_message` performs no
content validation and persists whatever content a member sends. -/
theorem content_validation_amended :
    (∀ (disabled : Bool) (message : String), jsTrim message = "" →
       handleSubmit disabled message = none) ∧
    (∀ (st : ServerState) (c : Conn) (channelId : Nat) (content : String),
       isMember st channelId c.userId = true →
       (send_message st c channelId content).1.messages =
         st.messages ++ [⟨st.nextMessageId, channelId, c.userId, content⟩]) := by
  constructor
  · intro disabled message h
    simp [handleSubmit, h]
  · intro st c channelId content hm
    unfold send_message
    rw [if_pos hm]
    split <;> rfl

/-- Witness for the amended C4: the client drops a three-space message,
and the server persists a member's message verbatim. -/
theorem content_validation_amended_witness :
    handleSubmit false "   " = none ∧
    (send_message stBase ⟨20, 2, "bob"⟩ 1 "yo").1.messages =
      stBase.messages ++ [⟨2, 1, 2, "yo"⟩] :=
  ⟨content_validation_amended.1 false "   " (by decide),
   content_validation_amended.2 stBase ⟨20, 2, "bob"⟩ 1 "yo" (by decide)⟩

lemma reverse_drop_take_reverse {α : Type} (l : List α) (off lim : Nat) :
    ((l.reverse.drop off).take lim).reverse =
      (l.take (l.length - off)).drop (l.length - off - lim) := by
  rw [List.drop_reverse, List.take_reverse, List.reverse_reverse]
  congr 1
  rw [List.length_take]
  rw [Nat.min_eq_left (Nat.sub_le _ _)]

/-- C5 counterexample: the message-history controller is not gated by the
membership check — user 3 is no member of channel 1, yet
`getChannelMessages` answers with the channel's messages instead of any
`NotAMember` rejection (the controller never reads the requester at all). -/
theorem history_gate_missing_cex :
    isMember stBase 1 3 = false ∧
    getChannelMessages stBase 3 1 none none =
      MsgResult.ok [⟨⟨1, 1, 1, "hi"⟩, "alice", "#111111"⟩] := by
  decide

/-- C5 amended: for *every* requester — member or not — message-history
retrieval succeeds and returns the window of the `limit` (default 50,
since a missing or zero `limit` query falls back to 50) most recent
messages of the channel after skipping the `offset` newest ones, as a
contiguous slice of the channel's message list in creation order, i.e.
oldest-first; no membership gate is applied. -/
theorem history_slice_spec (st : ServerState) (requesterId channelId : Nat)
    (qlimit qoffset : Option Nat) :
    getChannelMessages st requesterId channelId qlimit qoffset =
      MsgResult.ok
        (((historyRows st channelId).take
            ((historyRows st channelId).length - parseIntOr qoffset 0)).drop
          ((historyRows st channelId).length - parseIntOr qoffset 0 -
            parseIntOr qlimit 50)) := by
  simp only [getChannelMessages]
  rw [reverse_drop_take_reverse]

/-- C8: at most one `channel_members` row per (channel, user): an HTTP
join by an existing member is rejected with the 400 error and changes
nothing, and after any sequence of operations from a well-formed state
the pair-uniqueness of the membership table (together with the rest of
the database well-formedness) still holds. -/
theorem membership_uniqueness_spec :
    (∀ (st : ServerState) (userId channelId : Nat),
       isMember st channelId userId = true →
       joinChannel st userId channelId =
         (st, HttpResult.err 400 "Already a member of this channel")) ∧
    (∀ (st : ServerState) (ops : List Op), WF st →
       membersUnique (run st ops) ∧ WF (run st ops)) := by
  constructor
  · intro st userId channelId hm
    unfold joinChannel
    rw [if_pos hm]
  · intro st ops h
    have hwf := WF_run st ops h
    exact ⟨hwf.1, hwf⟩

/-- Witness for C8: bob is already a member of channel 1, so his HTTP
join is rejected unchanged; and uniqueness survives a concrete operation
sequence (a channel creation followed by a join). -/
theorem membership_uniqueness_spec_witness :
    isMember stBase 1 2 = true ∧
    joinChannel stBase 2 1 =
      (stBase, HttpResult.err 400 "Already a member of this channel") ∧
    membersUnique (run stBase [Op.opHttpCreate 2 "x" "y", Op.opHttpJoin 1 2]) := by
  refine ⟨by decide, membership_uniqueness_spec.1 stBase 2 1 (by decide), ?_⟩
  exact (membership_uniqueness_spec.2 stBase
    [Op.opHttpCreate 2 "x" "y", Op.opHttpJoin 1 2] (by decide)).1

end RealTimeChat
